import Mathlib

/-!
Shallow embedding of the Bierkeller point-of-sale terminal
(`cli.py` together with its persistence layer `database.py`).

Monetary amounts are Python `Decimal` values; they are embedded as exact
rationals (`ℚ`).  `quantize_decimal` mirrors
`value.quantize(Decimal("0.01"), rounding=ROUND_HALF_UP)`: round the amount to
two fractional digits, with exact halves rounded away from zero.

The Python cart is a `dict` keyed by display name preserving insertion order;
it is embedded as an association list (`List (String × CartItemDetails)`),
with insertion appending at the end and in-place update keeping the position,
exactly as a Python dict behaves.

Status-bar texts are kept as the constant prefixes of the messages produced by
the source; the dynamic payload interpolated into some of them (item numbers,
item names, formatted amounts) is presentation detail and is omitted.
The `<any>` key handler classifies characters with `isdigit`/`isalpha`; these
are embedded with Lean's ASCII classifiers, which agree with Python's on every
key an operator can produce on the bindings the program installs.
-/

deriving instance DecidableEq for Except

namespace Bierkeller

/-- Floor of a rational, written on the numerator and denominator so that the
kernel can evaluate it (`Int` division is Euclidean and the denominator is
positive, so this is the floor). -/
def ratFloor (x : ℚ) : ℤ :=
  x.num / (x.den : ℤ)

/-- Round a rational to an integer, ties away from zero
(Python `Decimal`'s `ROUND_HALF_UP`). -/
def roundHalfUp (x : ℚ) : ℤ :=
  if 0 ≤ x then ratFloor (x + 1/2) else -(ratFloor (-x + 1/2))

/-- `cli.quantize_decimal`: quantize to two decimal places, round half up. -/
def quantize_decimal (v : ℚ) : ℚ :=
  (roundHalfUp (v * 100) : ℚ) / 100

/-- The value part of one entry of `current_cart`
(keys `quantity`, `base_price`, `deposit`, `total_price`). -/
structure CartItemDetails where
  quantity : ℕ
  base_price : ℚ
  deposit : ℚ
  total_price : ℚ
deriving Repr, DecidableEq

/-- The payload stored in `item_to_add`
(keys `base_price`, `deposit`, `total_price`). -/
structure ItemPayload where
  base_price : ℚ
  deposit : ℚ
  total_price : ℚ
deriving Repr, DecidableEq

/-- `current_cart`: a Python dict keyed by unique item name, embedded as an
association list in insertion order. -/
abbrev Cart := List (String × CartItemDetails)

/-- Dict lookup `current_cart[name]` / `name in current_cart`. -/
def cartLookup : Cart → String → Option CartItemDetails
  | [], _ => none
  | en :: rest, name =>
      if en.1 = name then some en.2 else cartLookup rest name

/-- `current_cart[name]["quantity"] += quantity` (in-place update of the one
line keyed `name`). -/
def cartIncQty : Cart → String → ℕ → Cart
  | [], _, _ => []
  | en :: rest, name, q =>
      (if en.1 = name then (en.1, { en.2 with quantity := en.2.quantity + q })
       else en) :: cartIncQty rest name q

/-- `del current_cart[name]`. -/
def cartRemove : Cart → String → Cart
  | [], _ => []
  | en :: rest, name =>
      if en.1 = name then cartRemove rest name
      else en :: cartRemove rest name

/-- Number of cart lines stored under `name` (a dict always has at most one). -/
def countKey : Cart → String → ℕ
  | [], _ => 0
  | en :: rest, name =>
      (if en.1 = name then 1 else 0) + countKey rest name

inductive CartError
  | priceMismatch
deriving Repr, DecidableEq

/-- The cart mutation performed by the `InputMode.ADDING_QUANTITY` branch of
the enter binding: merge by name, asserting that the stored `total_price`
equals the incoming one (`assert current_cart[name]["total_price"] ==
total_price`), or insert a new line at the end. -/
def addToCart (cart : Cart) (name : String) (p : ItemPayload) (q : ℕ) :
    Except CartError Cart :=
  match cartLookup cart name with
  | some d =>
      if d.total_price = p.total_price then
        .ok (cartIncQty cart name q)
      else
        .error .priceMismatch
  | none =>
      .ok (cart ++ [(name, ⟨q, p.base_price, p.deposit, p.total_price⟩)])

/-- Sum of `total_price * quantity` over the cart (the loop in the finish
binding, and the running total of `get_cart_text`). -/
def cartTotal (cart : Cart) : ℚ :=
  (cart.map (fun e => e.2.total_price * (e.2.quantity : ℚ))).sum

/-- The quantized grand total computed by the finish binding. -/
def computeTotal (cart : Cart) : ℚ :=
  quantize_decimal (cartTotal cart)

/-- One entry of the `items` dict stored in a transaction record. -/
structure LoggedItem where
  name : String
  quantity : ℕ
  base_price : ℚ
  deposit : ℚ
  total_price_per_item : ℚ
  line_total : ℚ
deriving Repr, DecidableEq

/-- The transaction record built by the finish binding. -/
structure Transaction where
  timestamp : String
  total : ℚ
  items : List LoggedItem
deriving Repr, DecidableEq

/-- The `logged_items` comprehension of the finish binding. -/
def loggedItems (cart : Cart) : List LoggedItem :=
  cart.map (fun e =>
    ⟨e.1, e.2.quantity, e.2.base_price, e.2.deposit, e.2.total_price,
      quantize_decimal (e.2.total_price * (e.2.quantity : ℚ))⟩)

/-- A raw product document of the `products` collection; `none` marks an
absent field. -/
structure RawProduct where
  name : Option String
  crate_price : Option ℚ
  crate_deposit : Option ℚ
  bottle_price : Option ℚ
  bottle_deposit : Option ℚ
deriving Repr, DecidableEq

/-- A raw empty-container document of the `empties` collection. -/
structure RawEmpty where
  name : Option String
  deposit_value : Option ℚ
deriving Repr, DecidableEq

/-- `database.get_products`: every monetary field is filled in with the
default `Decimal('0.00')` when absent (`p.get(key, Decimal('0.00'))`); the
`name` field is left untouched.  (The store's sort by name only permutes the
list; `populate_selection_lists` re-sorts the selection lists itself.) -/
def get_products (ps : List RawProduct) : List RawProduct :=
  ps.map (fun p =>
    { p with
        crate_price := some (p.crate_price.getD 0)
        crate_deposit := some (p.crate_deposit.getD 0)
        bottle_price := some (p.bottle_price.getD 0)
        bottle_deposit := some (p.bottle_deposit.getD 0) })

/-- `database.get_empties`: `deposit_value` is defaulted to `Decimal('0.00')`
when absent. -/
def get_empties (es : List RawEmpty) : List RawEmpty :=
  es.map (fun e => { e with deposit_value := some (e.deposit_value.getD 0) })

/-- Insert into a list sorted ascending by `key` (helper for the
`list.sort(key=...)` calls of `populate_selection_lists`). -/
def insertByKey (key : α → String) (x : α) : List α → List α
  | [] => [x]
  | y :: ys => if key y < key x then y :: insertByKey key x ys else x :: y :: ys

/-- `list.sort(key=lambda item: item[0])`: sort ascending by display name. -/
def sortByKey (key : α → String) : List α → List α
  | [] => []
  | x :: xs => insertByKey key x (sortByKey key xs)

/-- The three selection lists built at startup. -/
structure SelectionLists where
  crates : List (String × ℚ × ℚ × ℚ)
  bottles : List (String × ℚ × ℚ × ℚ)
  empties : List (String × ℚ)
deriving Repr, DecidableEq

/-- The crates loop of `populate_selection_lists`: `product['name']` raises
`KeyError` when the name is absent (caught and turned into `sys.exit(1)`,
here `.error ()`); prices arrive from `get_products` already defaulted. -/
def buildCrates : List RawProduct → Except Unit (List (String × ℚ × ℚ × ℚ))
  | [] => .ok []
  | p :: rest =>
      match p.name with
      | none => .error ()
      | some nm =>
          let cp := quantize_decimal (p.crate_price.getD 0)
          let cd := quantize_decimal (p.crate_deposit.getD 0)
          match buildCrates rest with
          | .ok r => .ok ((nm ++ " Crate", cp, cd, cp + cd) :: r)
          | .error e => .error e

/-- The bottles loop of `populate_selection_lists`. -/
def buildBottles : List RawProduct → Except Unit (List (String × ℚ × ℚ × ℚ))
  | [] => .ok []
  | p :: rest =>
      match p.name with
      | none => .error ()
      | some nm =>
          let bp := quantize_decimal (p.bottle_price.getD 0)
          let bd := quantize_decimal (p.bottle_deposit.getD 0)
          match buildBottles rest with
          | .ok r => .ok ((nm ++ " Bottle", bp, bd, bp + bd) :: r)
          | .error e => .error e

/-- The empties loop of `populate_selection_lists`: the credit value is
stored negated. -/
def buildEmpties : List RawEmpty → Except Unit (List (String × ℚ))
  | [] => .ok []
  | e :: rest =>
      match e.name with
      | none => .error ()
      | some nm =>
          let credit := quantize_decimal (e.deposit_value.getD 0)
          match buildEmpties rest with
          | .ok r => .ok ((nm, -credit) :: r)
          | .error e => .error e

/-- `cli.populate_selection_lists`: builds the three lists from the store's
(field-defaulted) documents, exits the process (`.error ()`) on a `KeyError`,
and finally sorts each list alphabetically by display name. -/
def populate_selection_lists (ps : List RawProduct) (es : List RawEmpty) :
    Except Unit SelectionLists :=
  match buildCrates (get_products ps) with
  | .error e => .error e
  | .ok crates =>
      match buildBottles (get_products ps) with
      | .error e => .error e
      | .ok bottles =>
          match buildEmpties (get_empties es) with
          | .error e => .error e
          | .ok empties =>
              .ok ⟨sortByKey (·.1) crates, sortByKey (·.1) bottles,
                   sortByKey (·.1) empties⟩

/-- The persistent store: the append-only `transactions` collection and the
`cash_on_hand` value document (`none` when the document is absent). -/
structure DBState where
  transactions : List Transaction
  cash : Option ℚ
deriving Repr, DecidableEq

/-- Python `int(buffer)` on the contents of the numeric entry buffer: succeeds
exactly on a non-empty all-digit string (the buffer only ever receives digit
characters), yielding its base-10 value. -/
def parseBufferNat (s : String) : Option ℕ :=
  if s.data ≠ [] ∧ s.data.all Char.isDigit then
    some (s.data.foldl (fun n c => n * 10 + (c.toNat - '0'.toNat)) 0)
  else none

/-- `database.update_cash_on_hand`: `$inc` with upsert; reports success iff
`modified_count > 0 or upserted_id is not None`, i.e. iff the stored document
actually changed or was newly created. -/
def update_cash_on_hand (db : DBState) (change : ℚ) : DBState × Bool :=
  match db.cash with
  | some v =>
      ({ db with cash := some (v + change) },
        if v + change = v then false else true)
  | none => ({ db with cash := some change }, true)

/-- `database.add_transaction`: `txFail` is the environment's verdict on the
store being available and `insert_one` succeeding.  Before inserting, the
source iterates `transaction["items"]` — a dict, so the loop yields its
string keys — and calls `.items()` on each key; a string has no `.items()`,
so whenever the items dict is non-empty an `AttributeError` is raised, the
blanket `except` returns `False`, and nothing is inserted.  Only a record
with an empty items dict reaches `insert_one`. -/
def add_transaction (db : DBState) (t : Transaction) (txFail : Bool) :
    DBState × Bool :=
  if txFail then (db, false)
  else if t.items = [] then
    ({ db with transactions := db.transactions ++ [t] }, true)
  else (db, false)

/-- `cli.InputMode`. -/
inductive InputMode
  | IDLE
  | ADDING_CRATE
  | ADDING_BOTTLE
  | ADDING_EMPTY
  | ADDING_QUANTITY
  | REMOVING_ITEM
deriving Repr, DecidableEq

/-- The module-level mutable UI state of `cli.py`. -/
structure AppState where
  available_crates_for_selection : List (String × ℚ × ℚ × ℚ)
  available_bottles_for_selection : List (String × ℚ × ℚ × ℚ)
  available_empties_for_selection : List (String × ℚ)
  current_cart : Cart
  status_message : String
  input_buffer : String
  input_mode : InputMode
  item_to_add : Option (String × ItemPayload)
  quit_confirmation_pending : Bool
  cart_display_order : List String
deriving Repr, DecidableEq

/-- `cli.reset_input_state`: clears buffer, mode and pending selection but not
the status message. -/
def reset_input_state (s : AppState) : AppState :=
  { s with input_buffer := "", input_mode := .IDLE, item_to_add := none }

/-- `cli.handle_action_interrupt`: cancels a pending quit confirmation and/or
an active input mode; returns the updated state and whether it interrupted. -/
def handle_action_interrupt (s : AppState) : AppState × Bool :=
  let p :=
    if s.quit_confirmation_pending then
      ({ s with quit_confirmation_pending := false,
                status_message := "Quit cancelled." }, true)
    else (s, false)
  if p.1.input_mode ≠ .IDLE then
    (if p.2 then reset_input_state p.1
     else { reset_input_state p.1 with status_message := "Input cancelled." },
     true)
  else p

/-- One operator keystroke.  The letter keys have their own bindings; every
other character (digits, uppercase letters, punctuation) is dispatched to the
`<any>` binding and is embedded as `Key.char`. -/
inductive Key
  | a | b | e | r | f | c | q | enter | escape | backspace
  | char (ch : Char)
deriving Repr, DecidableEq

/-- Outcome of processing one keystroke: continue the event loop, exit the
application (`event.app.exit()`), or crash out of the loop with an uncaught
exception (the `assert` in the quantity branch); the carried state is the
state at that moment. -/
inductive StepOut
  | cont (s : AppState) (db : DBState)
  | exit (s : AppState) (db : DBState)
  | crash (s : AppState) (db : DBState)
deriving Repr, DecidableEq

/-- The `q` binding. -/
def handleQ (s : AppState) (db : DBState) : StepOut :=
  if s.quit_confirmation_pending then .exit s db
  else if s.input_mode ≠ .IDLE then
    .cont { reset_input_state s with
              status_message := "Input cancelled. Press Q again to quit." } db
  else if s.current_cart ≠ [] then
    .cont { s with quit_confirmation_pending := true, status_message := "" } db
  else .exit s db

/-- The common body of the `a`, `b` and `e` bindings: interrupt, else enter
the given selection mode. -/
def startMode (s : AppState) (db : DBState) (m : InputMode) : StepOut :=
  let p := handle_action_interrupt s
  if p.2 then .cont p.1 db
  else if p.1.input_mode = .IDLE then
    .cont { reset_input_state { p.1 with status_message := "" } with
              input_mode := m } db
  else
    .cont { p.1 with
              status_message :=
                "Error: Already in input mode. Press Esc to cancel." } db

/-- The `r` binding. -/
def handleR (s : AppState) (db : DBState) : StepOut :=
  let p := handle_action_interrupt s
  if p.2 then .cont p.1 db
  else if p.1.current_cart = [] then
    .cont { p.1 with status_message := "Cart is empty. Nothing to remove." } db
  else if p.1.input_mode = .IDLE then
    .cont { reset_input_state { p.1 with status_message := "" } with
              input_mode := .REMOVING_ITEM } db
  else
    .cont { p.1 with
              status_message :=
                "Error: Already in input mode. Press Esc to cancel." } db

/-- The `f` binding (finish transaction).  `ts` stands in for
`datetime.now().isoformat()`, `txFail` for the environment's verdict on the
transaction insert. -/
def handleF (s : AppState) (db : DBState) (txFail : Bool) (ts : String) :
    StepOut :=
  let p := handle_action_interrupt s
  if p.2 then .cont p.1 db
  else if p.1.current_cart = [] then
    .cont { p.1 with status_message := "Cart is empty. Nothing to finish." } db
  else
    let total := computeTotal p.1.current_cart
    let transaction : Transaction := ⟨ts, total, loggedItems p.1.current_cart⟩
    let r1 := add_transaction db transaction txFail
    if r1.2 = false then
      .cont { p.1 with
                status_message :=
                  "Error saving transaction: Transaction could not be saved to database" }
        r1.1
    else
      let r2 := update_cash_on_hand r1.1 total
      if r2.2 = false then
        .cont { p.1 with
                  status_message :=
                    "Error saving transaction: Cash could not be updated" }
          r2.1
      else
        .cont (reset_input_state
                { p.1 with current_cart := [], cart_display_order := [],
                           status_message := "Transaction finished." }) r2.1

/-- The `c` binding (cancel transaction / clear cart). -/
def handleC (s : AppState) (db : DBState) : StepOut :=
  let p := handle_action_interrupt s
  if p.2 then .cont p.1 db
  else if p.1.current_cart = [] then
    .cont { p.1 with status_message := "Cart is already empty." } db
  else
    .cont (reset_input_state
            { p.1 with current_cart := [], cart_display_order := [],
                       status_message := "Transaction cancelled. Cart cleared." })
      db

/-- The `escape` binding. -/
def handleEscape (s : AppState) (db : DBState) : StepOut :=
  if s.input_mode ≠ .IDLE then
    .cont { reset_input_state s with status_message := "Input cancelled." } db
  else if s.quit_confirmation_pending then
    .cont (handle_action_interrupt s).1 db
  else .cont { s with status_message := "" } db

/-- The `backspace` binding. -/
def handleBackspace (s : AppState) (db : DBState) : StepOut :=
  if s.input_mode ≠ .IDLE ∧ s.input_buffer ≠ "" then
    .cont { s with input_buffer := s.input_buffer.dropRight 1,
                   status_message := "" } db
  else if s.quit_confirmation_pending then
    .cont (handle_action_interrupt s).1 db
  else .cont s db

/-- The `InputMode.ADDING_CRATE` branch of the enter binding. -/
def enterCrate (s : AppState) (db : DBState) : StepOut :=
  match parseBufferNat s.input_buffer with
  | some num =>
      if 1 ≤ num ∧ num ≤ s.available_crates_for_selection.length then
        let en := s.available_crates_for_selection.getD (num - 1) ("", 0, 0, 0)
        .cont { s with
                  item_to_add := some (en.1, ⟨en.2.1, en.2.2.1, en.2.2.2⟩),
                  input_mode := .ADDING_QUANTITY, input_buffer := "",
                  status_message := "" } db
      else
        .cont { s with status_message := "Error: Invalid crate number: ",
                       input_buffer := "" } db
  | none =>
      .cont { s with status_message := "Error: Invalid input: ",
                     input_buffer := "" } db

/-- The `InputMode.ADDING_BOTTLE` branch of the enter binding. -/
def enterBottle (s : AppState) (db : DBState) : StepOut :=
  match parseBufferNat s.input_buffer with
  | some num =>
      if 1 ≤ num ∧ num ≤ s.available_bottles_for_selection.length then
        let en := s.available_bottles_for_selection.getD (num - 1) ("", 0, 0, 0)
        .cont { s with
                  item_to_add := some (en.1, ⟨en.2.1, en.2.2.1, en.2.2.2⟩),
                  input_mode := .ADDING_QUANTITY, input_buffer := "",
                  status_message := "" } db
      else
        .cont { s with status_message := "Error: Invalid bottle number: ",
                       input_buffer := "" } db
  | none =>
      .cont { s with status_message := "Error: Invalid input: ",
                     input_buffer := "" } db

/-- The `InputMode.ADDING_EMPTY` branch of the enter binding: the stored
(negative) credit value becomes the payload's `total_price`, `base_price` and
`deposit` are zero. -/
def enterEmpty (s : AppState) (db : DBState) : StepOut :=
  match parseBufferNat s.input_buffer with
  | some num =>
      if 1 ≤ num ∧ num ≤ s.available_empties_for_selection.length then
        let en := s.available_empties_for_selection.getD (num - 1) ("", 0)
        .cont { s with
                  item_to_add := some (en.1, ⟨0, 0, en.2⟩),
                  input_mode := .ADDING_QUANTITY, input_buffer := "",
                  status_message := "" } db
      else
        .cont { s with status_message := "Error: Invalid empty number: ",
                       input_buffer := "" } db
  | none =>
      .cont { s with status_message := "Error: Invalid input: ",
                     input_buffer := "" } db

/-- The `InputMode.ADDING_QUANTITY` branch of the enter binding.  A failed
price-mismatch assertion raises out of the handler with the state untouched
(`StepOut.crash`). -/
def enterQuantity (s : AppState) (db : DBState) : StepOut :=
  match parseBufferNat s.input_buffer with
  | some quantity =>
      if quantity > 0 then
        match s.item_to_add with
        | some it =>
            match addToCart s.current_cart it.1 it.2 quantity with
            | .ok cart =>
                .cont (reset_input_state
                        { s with current_cart := cart,
                                 status_message := "Added items: " }) db
            | .error _ => .crash s db
        | none =>
            .cont (reset_input_state
                    { s with
                        status_message :=
                          "Error: No item selected to add quantity for (Internal Error)." })
              db
      else
        .cont { s with status_message := "Error: Quantity must be positive.",
                       input_buffer := "" } db
  | none =>
      .cont { s with status_message := "Error: Invalid quantity: ",
                     input_buffer := "" } db

/-- The `InputMode.REMOVING_ITEM` branch of the enter binding. -/
def enterRemove (s : AppState) (db : DBState) : StepOut :=
  match parseBufferNat s.input_buffer with
  | some num =>
      if 1 ≤ num ∧ num ≤ s.cart_display_order.length then
        let nm := s.cart_display_order.getD (num - 1) ""
        if (cartLookup s.current_cart nm).isSome then
          .cont (reset_input_state
                  { s with current_cart := cartRemove s.current_cart nm,
                           status_message := "Removed item: " }) db
        else
          .cont (reset_input_state
                  { s with
                      status_message :=
                        "Error: Item not found in cart (Internal Error)." }) db
      else
        .cont { s with status_message := "Error: Invalid cart item number: ",
                       input_buffer := "" } db
  | none =>
      .cont { s with status_message := "Error: Invalid input: ",
                     input_buffer := "" } db

/-- The `enter` binding. -/
def handleEnter (s : AppState) (db : DBState) : StepOut :=
  if s.quit_confirmation_pending then .cont (handle_action_interrupt s).1 db
  else if s.input_buffer = "" ∧ s.input_mode ≠ .IDLE then
    .cont { s with status_message := "Error: No number entered." } db
  else
    match s.input_mode with
    | .ADDING_CRATE => enterCrate s db
    | .ADDING_BOTTLE => enterBottle s db
    | .ADDING_EMPTY => enterEmpty s db
    | .ADDING_QUANTITY => enterQuantity s db
    | .REMOVING_ITEM => enterRemove s db
    | .IDLE => .cont s db

/-- The `<any>` binding: cancel a pending quit confirmation first (unless the
character lowercases to `q`), then append digits to the buffer in input modes,
and report unknown alphabetic commands when idle. -/
def handleAny (s : AppState) (db : DBState) (ch : Char) : StepOut :=
  if s.quit_confirmation_pending ∧ ch.toLower ≠ 'q' then
    .cont (handle_action_interrupt s).1 db
  else if ch.isDigit then
    if s.input_mode ∈ [InputMode.ADDING_CRATE, .ADDING_BOTTLE, .ADDING_EMPTY,
                       .ADDING_QUANTITY, .REMOVING_ITEM] then
      .cont { s with input_buffer := s.input_buffer.push ch,
                     status_message := "" } db
    else .cont s db
  else if ch.isAlpha then
    if s.input_mode = .IDLE ∧
        ch.toLower ∉ ['a', 'b', 'e', 'f', 'c', 'r', 'q'] then
      .cont { s with status_message := "Unknown command: " } db
    else .cont s db
  else .cont s db

/-- Dispatch of one keystroke to its binding. -/
def step (s : AppState) (db : DBState) (k : Key) (txFail : Bool)
    (ts : String) : StepOut :=
  match k with
  | .q => handleQ s db
  | .a => startMode s db .ADDING_CRATE
  | .b => startMode s db .ADDING_BOTTLE
  | .e => startMode s db .ADDING_EMPTY
  | .r => handleR s db
  | .f => handleF s db txFail ts
  | .c => handleC s db
  | .escape => handleEscape s db
  | .backspace => handleBackspace s db
  | .enter => handleEnter s db
  | .char ch => handleAny s db ch

/-- The render pass after every event: `get_cart_text` recomputes
`cart_display_order` as the alphabetically sorted cart keys. -/
def render (s : AppState) : AppState :=
  { s with cart_display_order := sortByKey id (s.current_cart.map (·.1)) }

/-- The state after `main`'s initialization (empty cart, idle mode, ready
status), for given selection lists. -/
def initialState (crates bottles : List (String × ℚ × ℚ × ℚ))
    (empties : List (String × ℚ)) : AppState :=
  { available_crates_for_selection := crates
    available_bottles_for_selection := bottles
    available_empties_for_selection := empties
    current_cart := []
    status_message := "Store Ready."
    input_buffer := ""
    input_mode := .IDLE
    item_to_add := none
    quit_confirmation_pending := false
    cart_display_order := [] }

/-- A sequence of completed quantity-confirmed additions of the same item
name, applied in order to a cart. -/
def addSameName (name : String) : Cart → List (ItemPayload × ℕ) →
    Except CartError Cart
  | cart, [] => .ok cart
  | cart, pq :: rest =>
      match addToCart cart name pq.1 pq.2 with
      | .ok cart' => addSameName name cart' rest
      | .error e => .error e

/-- A sequence of completed additions of (name, quantity) pairs, the unit
prices being resolved per name by the catalog function `P`. -/
def foldAdds (P : String → ItemPayload) : Cart → List (String × ℕ) →
    Except CartError Cart
  | cart, [] => .ok cart
  | cart, nq :: rest =>
      match addToCart cart nq.1 (P nq.1) nq.2 with
      | .ok cart' => foldAdds P cart' rest
      | .error e => .error e

/-- Every cart line's stored unit total price agrees with the catalog
function `P`. -/
def CartPriced (P : String → ItemPayload) (cart : Cart) : Prop :=
  ∀ en ∈ cart, en.2.total_price = (P en.1).total_price

/-- The keys of the cart are pairwise distinct (always true of a dict). -/
def CartKeysNodup (cart : Cart) : Prop :=
  (cart.map (·.1)).Nodup

/-- The pending-selection coherence invariant of the input state machine:
in `ADDING_QUANTITY` the pending selection is set, in `IDLE` it is cleared. -/
def InputInv (s : AppState) : Prop :=
  (s.input_mode = .ADDING_QUANTITY → s.item_to_add.isSome) ∧
  (s.input_mode = .IDLE → s.item_to_add = none)

/-- The states the single-threaded event loop can be observed in: the freshly
rendered initial state, and the rendered result of any continuing keystroke
(the store contents and the failure verdicts are the environment's choice). -/
inductive Reachable : AppState → Prop
  | init (crates bottles : List (String × ℚ × ℚ × ℚ))
      (empties : List (String × ℚ)) :
      Reachable (render (initialState crates bottles empties))
  | next {s : AppState} (db : DBState) (k : Key) (txFail : Bool) (ts : String)
      {s' : AppState} {db' : DBState} :
      Reachable s → step s db k txFail ts = .cont s' db' →
      Reachable (render s')

end Bierkeller

namespace Bierkeller

theorem ratFloor_eq_floor (x : ℚ) : ratFloor x = ⌊x⌋ := by
  rw [ratFloor, Rat.floor_def]

theorem roundHalfUp_intCast (k : ℤ) : roundHalfUp (k : ℚ) = k := by
  have h0 : ⌊(1 / 2 : ℚ)⌋ = 0 := by
    rw [Int.floor_eq_zero_iff]
    constructor <;> norm_num
  rw [roundHalfUp]
  split
  · rw [ratFloor_eq_floor, add_comm, Int.floor_add_int, h0, zero_add]
  · rw [ratFloor_eq_floor]
    have : -(k : ℚ) + 1 / 2 = (1 / 2 : ℚ) + (-k : ℤ) := by push_cast; ring
    rw [this, Int.floor_add_int, h0, zero_add, neg_neg]

theorem quantize_decimal_int_div (k : ℤ) :
    quantize_decimal ((k : ℚ) / 100) = (k : ℚ) / 100 := by
  have h : ((k : ℚ) / 100) * 100 = (k : ℚ) := by
    field_simp
  rw [quantize_decimal, h, roundHalfUp_intCast]

theorem quantize_decimal_fixed_mul (c : ℚ) (h : quantize_decimal c = c)
    (q : ℕ) : quantize_decimal (c * q) = c * q := by
  set k := roundHalfUp (c * 100) with hk
  have hc : c = (k : ℚ) / 100 := by
    rw [← h, quantize_decimal]
  have : c * q = ((k * q : ℤ) : ℚ) / 100 := by
    rw [hc]; push_cast; ring
  rw [this, quantize_decimal_int_div, ← this]

theorem cartLookup_none_iff (cart : Cart) (name : String) :
    cartLookup cart name = none ↔ name ∉ cart.map (·.1) := by
  induction cart with
  | nil => simp [cartLookup]
  | cons en rest ih =>
      by_cases h : en.1 = name
      · simp [cartLookup, h]
      · simp only [cartLookup, if_neg h, List.map_cons, List.mem_cons, ih]
        constructor
        · rintro hn (rfl | hm)
          · exact h rfl
          · exact hn hm
        · intro hn hm
          exact hn (Or.inr hm)

theorem countKey_eq_zero (cart : Cart) (name : String)
    (h : cartLookup cart name = none) : countKey cart name = 0 := by
  induction cart with
  | nil => simp [countKey]
  | cons en rest ih =>
      by_cases he : en.1 = name
      · simp [cartLookup, he] at h
      · simp only [cartLookup, if_neg he] at h
        simp [countKey, if_neg he, ih h]

theorem cartLookup_append_self (cart : Cart) (name : String)
    (d : CartItemDetails) (h : cartLookup cart name = none) :
    cartLookup (cart ++ [(name, d)]) name = some d := by
  induction cart with
  | nil => simp [cartLookup]
  | cons en rest ih =>
      by_cases he : en.1 = name
      · simp [cartLookup, he] at h
      · simp only [cartLookup, if_neg he] at h
        simp only [List.cons_append, cartLookup, if_neg he]
        exact ih h

theorem countKey_append (c₁ c₂ : Cart) (name : String) :
    countKey (c₁ ++ c₂) name = countKey c₁ name + countKey c₂ name := by
  induction c₁ with
  | nil => simp [countKey]
  | cons en rest ih => simp [countKey, ih]; omega

theorem cartLookup_incQty (cart : Cart) (name : String) (q : ℕ) :
    cartLookup (cartIncQty cart name q) name =
      (cartLookup cart name).map
        (fun d => { d with quantity := d.quantity + q }) := by
  induction cart with
  | nil => simp [cartLookup, cartIncQty]
  | cons en rest ih =>
      by_cases he : en.1 = name
      · simp [cartIncQty, cartLookup, he]
      · simp [cartIncQty, cartLookup, he, ih]

theorem countKey_incQty (cart : Cart) (name : String) (q : ℕ) :
    countKey (cartIncQty cart name q) name = countKey cart name := by
  induction cart with
  | nil => simp [countKey, cartIncQty]
  | cons en rest ih =>
      by_cases he : en.1 = name
      · simp [cartIncQty, countKey, he, ih]
      · simp [cartIncQty, countKey, he, ih]

theorem addSameName_ok (name : String) (p : ℚ)
    (adds : List (ItemPayload × ℕ)) :
    ∀ (cart : Cart) (d : CartItemDetails),
      cartLookup cart name = some d → countKey cart name = 1 →
      d.total_price = p → (∀ x ∈ adds, x.1.total_price = p) →
      ∃ cart' d', addSameName name cart adds = .ok cart' ∧
        cartLookup cart' name = some d' ∧ countKey cart' name = 1 ∧
        d'.quantity = d.quantity + (adds.map (·.2)).sum ∧
        d'.total_price = p := by
  induction adds with
  | nil =>
      intro cart d hl hc hp _
      exact ⟨cart, d, rfl, hl, hc, by simp, hp⟩
  | cons pq rest ih =>
      intro cart d hl hc hp hall
      have hpq : pq.1.total_price = p := hall pq (by simp)
      have hstep : addToCart cart name pq.1 pq.2 =
          .ok (cartIncQty cart name pq.2) := by
        rw [addToCart, hl]
        exact if_pos (by rw [hp, hpq])
      have hl' : cartLookup (cartIncQty cart name pq.2) name =
          some { d with quantity := d.quantity + pq.2 } := by
        rw [cartLookup_incQty, hl]
        rfl
      have hc' : countKey (cartIncQty cart name pq.2) name = 1 := by
        rw [countKey_incQty]; exact hc
      obtain ⟨cart', d', h1, h2, h3, h4, h5⟩ :=
        ih (cartIncQty cart name pq.2) _ hl' hc' hp
          (fun x hx => hall x (List.mem_cons_of_mem _ hx))
      refine ⟨cart', d', ?_, h2, h3, ?_, h5⟩
      · simp only [addSameName, hstep]
        exact h1
      · rw [h4]
        simp only [List.map_cons, List.sum_cons]
        omega

/-- C1: a sequence of completed quantity-confirmed additions of the same item
name with matching `unit_total_price` leaves exactly one cart line for that
name, whose quantity is the sum of the added quantities; an addition whose
`unit_total_price` differs from the stored one raises the price-mismatch
assertion (crashing the handler) and leaves the cart, and in particular the
stored prices, untouched. -/
theorem c1_merge_sums_and_mismatch_raises (name : String) (p : ℚ) :
    (∀ (adds : List (ItemPayload × ℕ)) (cart₀ : Cart),
      cartLookup cart₀ name = none → adds ≠ [] →
      (∀ x ∈ adds, x.1.total_price = p ∧ 0 < x.2) →
      ∃ cart' d, addSameName name cart₀ adds = .ok cart' ∧
        cartLookup cart' name = some d ∧ countKey cart' name = 1 ∧
        d.quantity = (adds.map (·.2)).sum ∧ d.total_price = p) ∧
    (∀ (cart : Cart) (d : CartItemDetails) (pl : ItemPayload) (q : ℕ),
      cartLookup cart name = some d → pl.total_price ≠ d.total_price →
      addToCart cart name pl q = .error .priceMismatch) ∧
    (∀ (s : AppState) (db : DBState) (txFail : Bool) (ts : String)
       (d : CartItemDetails) (pl : ItemPayload) (q : ℕ),
      s.quit_confirmation_pending = false →
      s.input_mode = .ADDING_QUANTITY →
      s.item_to_add = some (name, pl) →
      parseBufferNat s.input_buffer = some q → 0 < q →
      cartLookup s.current_cart name = some d →
      pl.total_price ≠ d.total_price →
      step s db .enter txFail ts = .crash s db) := by
  have mismatch : ∀ (cart : Cart) (d : CartItemDetails) (pl : ItemPayload)
      (q : ℕ), cartLookup cart name = some d →
      pl.total_price ≠ d.total_price →
      addToCart cart name pl q = .error .priceMismatch := by
    intro cart d pl q hl hne
    rw [addToCart, hl]
    exact if_neg (fun h => hne h.symm)
  refine ⟨?_, mismatch, ?_⟩
  · intro adds cart₀ h0 hne hall
    match adds with
    | pq :: rest =>
        have hpq := hall pq (by simp)
        have hstep : addToCart cart₀ name pq.1 pq.2 =
            .ok (cart₀ ++ [(name, ⟨pq.2, pq.1.base_price, pq.1.deposit,
              pq.1.total_price⟩)]) := by
          rw [addToCart, h0]
        have hl₁ : cartLookup (cart₀ ++ [(name, ⟨pq.2, pq.1.base_price,
            pq.1.deposit, pq.1.total_price⟩)]) name =
            some ⟨pq.2, pq.1.base_price, pq.1.deposit, pq.1.total_price⟩ :=
          cartLookup_append_self cart₀ name _ h0
        have hc₁ : countKey (cart₀ ++ [(name, ⟨pq.2, pq.1.base_price,
            pq.1.deposit, pq.1.total_price⟩)]) name = 1 := by
          rw [countKey_append, countKey_eq_zero cart₀ name h0]
          simp [countKey]
        obtain ⟨cart', d', h1, h2, h3, h4, h5⟩ :=
          addSameName_ok name p rest _ _ hl₁ hc₁ hpq.1
            (fun x hx => (hall x (List.mem_cons_of_mem _ hx)).1)
        refine ⟨cart', d', ?_, h2, h3, ?_, h5⟩
        · simp only [addSameName, hstep]
          exact h1
        · rw [h4]
          simp
  · intro s db txFail ts d pl q hpend hmode hitem hparse hq hlook hne
    have hbuf : ¬ s.input_buffer = "" := by
      intro h0
      rw [h0] at hparse
      simp [parseBufferNat] at hparse
    have hadd := mismatch s.current_cart d pl q hlook hne
    simp only [step, handleEnter, hpend, Bool.false_eq_true, if_false, hmode,
      hbuf, false_and, enterQuantity, hparse, hq, if_true, hitem, hadd]

/-- Concrete state used to witness the price-mismatch crash of C1: a cart
line "X" stored at total price 5, a pending selection of "X" at total
price 7, quantity buffer "2". -/
def c1MismatchState : AppState :=
  { available_crates_for_selection := []
    available_bottles_for_selection := []
    available_empties_for_selection := []
    current_cart := [("X", ⟨1, 0, 0, 5⟩)]
    status_message := ""
    input_buffer := "2"
    input_mode := .ADDING_QUANTITY
    item_to_add := some ("X", ⟨0, 0, 7⟩)
    quit_confirmation_pending := false
    cart_display_order := ["X"] }

theorem c1_witness :
    (∃ cart' d,
      addSameName "Cola Crate" []
          [(⟨12, 5, 17⟩, 2), (⟨12, 5, 17⟩, 3)] = .ok cart' ∧
        cartLookup cart' "Cola Crate" = some d ∧
        countKey cart' "Cola Crate" = 1 ∧
        d.quantity = ([(⟨12, 5, 17⟩, 2), (⟨12, 5, 17⟩, 3)].map
          (fun x : ItemPayload × ℕ => x.2)).sum ∧
        d.total_price = 17) ∧
    step c1MismatchState ⟨[], some 100⟩ .enter false "t" =
      .crash c1MismatchState ⟨[], some 100⟩ := by
  constructor
  · exact (c1_merge_sums_and_mismatch_raises "Cola Crate" 17).1
      [(⟨12, 5, 17⟩, 2), (⟨12, 5, 17⟩, 3)] [] rfl (by simp)
      (by intro x hx
          simp only [List.mem_cons, List.not_mem_nil, or_false] at hx
          rcases hx with rfl | rfl
          · exact ⟨rfl, by decide⟩
          · exact ⟨rfl, by decide⟩)
  · exact (c1_merge_sums_and_mismatch_raises "X" 17).2.2
      c1MismatchState ⟨[], some 100⟩ false "t" ⟨1, 0, 0, 5⟩ ⟨0, 0, 7⟩ 2
      rfl rfl rfl (by decide) (by decide) rfl
      (by with_unfolding_all decide)

theorem quantize_decimal_neg_of_fixed (c : ℚ) (h : quantize_decimal c = c) :
    quantize_decimal (-c) = -c := by
  set k := roundHalfUp (c * 100) with hk
  have hc : c = (k : ℚ) / 100 := by rw [← h, quantize_decimal]
  have hneg : -c = ((-k : ℤ) : ℚ) / 100 := by rw [hc]; push_cast; ring
  rw [hneg, quantize_decimal_int_div]

/-- C5: an empty with credit value `c` is stored in the selection list with
`unit_total_price = -c`; confirming it as selection number 1 captures the
pending payload `(0, 0, -c)`; adding it to an empty cart with quantity `q`
yields a line whose line total is `-c * q`, and the grand total of that cart
is `-(c * q)` both as the displayed running sum and as the quantized commit
total. -/
theorem c5_empty_credit_negative_total (nm : String) (c : ℚ) (q : ℕ)
    (hc : quantize_decimal c = c) (_hq : 0 < q) :
    (∀ raw : RawEmpty, raw.name = some nm → raw.deposit_value = some c →
      populate_selection_lists [] [raw] = .ok ⟨[], [], [(nm, -c)]⟩) ∧
    (∀ (s : AppState) (db : DBState) (txFail : Bool) (ts : String),
      s.quit_confirmation_pending = false → s.input_mode = .ADDING_EMPTY →
      s.available_empties_for_selection = [(nm, -c)] →
      parseBufferNat s.input_buffer = some 1 →
      ∃ s', step s db .enter txFail ts = .cont s' db ∧
        s'.item_to_add = some (nm, ⟨0, 0, -c⟩) ∧
        s'.input_mode = .ADDING_QUANTITY) ∧
    addToCart [] nm ⟨0, 0, -c⟩ q = .ok [(nm, ⟨q, 0, 0, -c⟩)] ∧
    cartTotal [(nm, ⟨q, 0, 0, -c⟩)] = -(c * q) ∧
    computeTotal [(nm, ⟨q, 0, 0, -c⟩)] = -(c * q) := by
  have htot : cartTotal [(nm, ⟨q, 0, 0, -c⟩)] = -(c * q) := by
    simp [cartTotal]
  refine ⟨?_, ?_, rfl, htot, ?_⟩
  · intro raw h1 h2
    simp [populate_selection_lists, buildCrates, buildBottles, buildEmpties,
      get_products, get_empties, h1, h2, sortByKey, insertByKey, hc]
  · intro s db txFail ts hpend hmode hlist hparse
    have hbuf : ¬ s.input_buffer = "" := by
      intro h0
      rw [h0] at hparse
      simp [parseBufferNat] at hparse
    refine
      ⟨{ s with
          item_to_add := some (nm, ⟨0, 0, -c⟩)
          input_mode := .ADDING_QUANTITY
          input_buffer := ""
          status_message := "" }, ?_, rfl, rfl⟩
    simp [step, handleEnter, hpend, hbuf, hmode, enterEmpty, hparse, hlist]
  · calc computeTotal [(nm, ⟨q, 0, 0, -c⟩)]
        = quantize_decimal (-c * q) := by
          rw [computeTotal, htot, neg_mul]
      _ = -c * q :=
          quantize_decimal_fixed_mul (-c)
            (quantize_decimal_neg_of_fixed c hc) q
      _ = -(c * q) := neg_mul c q

/-- Witness for C5 at the spec's own example: credit 5.00, quantity 2. -/
theorem c5_witness :
    addToCart [] "Empty Crate" ⟨0, 0, -5⟩ 2 =
        .ok [("Empty Crate", ⟨2, 0, 0, -5⟩)] ∧
      cartTotal [("Empty Crate", ⟨2, 0, 0, -5⟩)] = -(5 * 2) ∧
      computeTotal [("Empty Crate", ⟨2, 0, 0, -5⟩)] = -(5 * 2) :=
  ⟨(c5_empty_credit_negative_total "Empty Crate" 5 2
      (by with_unfolding_all decide) (by decide)).2.2.1,
   (c5_empty_credit_negative_total "Empty Crate" 5 2
      (by with_unfolding_all decide) (by decide)).2.2.2.1,
   (c5_empty_credit_negative_total "Empty Crate" 5 2
      (by with_unfolding_all decide) (by decide)).2.2.2.2⟩

theorem cartLookup_mem (cart : Cart) (name : String) (d : CartItemDetails)
    (h : cartLookup cart name = some d) : (name, d) ∈ cart := by
  induction cart with
  | nil => simp [cartLookup] at h
  | cons en rest ih =>
      by_cases he : en.1 = name
      · simp only [cartLookup, if_pos he, Option.some_inj] at h
        have : en = (name, d) := by
          rw [← he, ← h]
        rw [← this]
        exact List.mem_cons_self en rest
      · simp only [cartLookup, if_neg he] at h
        exact List.mem_cons_of_mem _ (ih h)

theorem cartIncQty_keys (cart : Cart) (name : String) (q : ℕ) :
    (cartIncQty cart name q).map (·.1) = cart.map (·.1) := by
  induction cart with
  | nil => simp [cartIncQty]
  | cons en rest ih =>
      by_cases he : en.1 = name
      · simp [cartIncQty, he, ih]
      · simp [cartIncQty, he, ih]

theorem cartIncQty_of_lookup_none (cart : Cart) (name : String) (q : ℕ)
    (h : cartLookup cart name = none) : cartIncQty cart name q = cart := by
  induction cart with
  | nil => simp [cartIncQty]
  | cons en rest ih =>
      by_cases he : en.1 = name
      · simp [cartLookup, he] at h
      · simp only [cartLookup, if_neg he] at h
        simp [cartIncQty, he, ih h]

theorem cartTotal_cons (en : String × CartItemDetails) (rest : Cart) :
    cartTotal (en :: rest) =
      en.2.total_price * (en.2.quantity : ℚ) + cartTotal rest := by
  simp [cartTotal]

theorem cartTotal_append_single (cart : Cart)
    (en : String × CartItemDetails) :
    cartTotal (cart ++ [en]) =
      cartTotal cart + en.2.total_price * (en.2.quantity : ℚ) := by
  simp [cartTotal]

theorem cartTotal_incQty (cart : Cart) (name : String) (q : ℕ)
    (d : CartItemDetails) (hl : cartLookup cart name = some d)
    (hnd : CartKeysNodup cart) :
    cartTotal (cartIncQty cart name q) =
      cartTotal cart + d.total_price * (q : ℚ) := by
  induction cart with
  | nil => simp [cartLookup] at hl
  | cons en rest ih =>
      rw [CartKeysNodup, List.map_cons, List.nodup_cons] at hnd
      by_cases he : en.1 = name
      · simp only [cartLookup, if_pos he, Option.some_inj] at hl
        have hrest : cartLookup rest name = none := by
          rw [cartLookup_none_iff]
          rw [← he]
          exact hnd.1
        simp only [cartIncQty, if_pos he,
          cartIncQty_of_lookup_none rest name q hrest, cartTotal_cons, ← hl]
        push_cast
        ring
      · simp only [cartLookup, if_neg he] at hl
        simp only [cartIncQty, if_neg he, cartTotal_cons,
          ih hl hnd.2]
        ring

theorem cartPriced_incQty (P : String → ItemPayload) (cart : Cart)
    (name : String) (q : ℕ) (h : CartPriced P cart) :
    CartPriced P (cartIncQty cart name q) := by
  induction cart with
  | nil => simp [cartIncQty, CartPriced]
  | cons en rest ih =>
      have hh := h en (by simp)
      have ht : CartPriced P rest := fun x hx => h x (List.mem_cons_of_mem _ hx)
      intro x hx
      by_cases he : en.1 = name
      · simp only [cartIncQty, if_pos he, List.mem_cons] at hx
        rcases hx with rfl | hx
        · exact hh
        · exact ih ht x hx
      · simp only [cartIncQty, if_neg he, List.mem_cons] at hx
        rcases hx with rfl | hx
        · exact hh
        · exact ih ht x hx

theorem foldAdds_ok (P : String → ItemPayload) (l : List (String × ℕ)) :
    ∀ cart : Cart, CartPriced P cart → CartKeysNodup cart →
      ∃ cart', foldAdds P cart l = .ok cart' ∧ CartPriced P cart' ∧
        CartKeysNodup cart' ∧
        cartTotal cart' = cartTotal cart +
          (l.map (fun x => (P x.1).total_price * (x.2 : ℚ))).sum := by
  induction l with
  | nil =>
      intro cart hp hn
      exact ⟨cart, rfl, hp, hn, by simp⟩
  | cons nq rest ih =>
      intro cart hp hn
      rcases hlook : cartLookup cart nq.1 with _ | d
      · -- new line appended at the end
        have hstep : addToCart cart nq.1 (P nq.1) nq.2 =
            .ok (cart ++ [(nq.1, ⟨nq.2, (P nq.1).base_price,
              (P nq.1).deposit, (P nq.1).total_price⟩)]) := by
          rw [addToCart, hlook]
        have hp' : CartPriced P (cart ++ [(nq.1, ⟨nq.2, (P nq.1).base_price,
            (P nq.1).deposit, (P nq.1).total_price⟩)]) := by
          intro x hx
          rcases List.mem_append.1 hx with hx | hx
          · exact hp x hx
          · simp only [List.mem_singleton] at hx
            rw [hx]
        have hn' : CartKeysNodup (cart ++ [(nq.1, ⟨nq.2, (P nq.1).base_price,
            (P nq.1).deposit, (P nq.1).total_price⟩)]) := by
          rw [CartKeysNodup, List.map_append]
          simp only [List.map_cons, List.map_nil]
          rw [List.nodup_append]
          refine ⟨hn, List.nodup_singleton _, ?_⟩
          intro a ha hb
          simp only [List.mem_singleton] at hb
          rw [hb] at ha
          exact (cartLookup_none_iff cart nq.1).1 hlook ha
        obtain ⟨cart', h1, h2, h3, h4⟩ := ih _ hp' hn'
        refine ⟨cart', ?_, h2, h3, ?_⟩
        · simp only [foldAdds, hstep]
          exact h1
        · rw [h4, cartTotal_append_single]
          simp only [List.map_cons, List.sum_cons]
          ring
      · -- merge into the existing line
        have hd : d.total_price = (P nq.1).total_price :=
          hp (nq.1, d) (cartLookup_mem cart nq.1 d hlook)
        have hstep : addToCart cart nq.1 (P nq.1) nq.2 =
            .ok (cartIncQty cart nq.1 nq.2) := by
          rw [addToCart, hlook]
          exact if_pos hd
        have hp' := cartPriced_incQty P cart nq.1 nq.2 hp
        have hn' : CartKeysNodup (cartIncQty cart nq.1 nq.2) := by
          rw [CartKeysNodup, cartIncQty_keys]
          exact hn
        obtain ⟨cart', h1, h2, h3, h4⟩ := ih _ hp' hn'
        refine ⟨cart', ?_, h2, h3, ?_⟩
        · simp only [foldAdds, hstep]
          exact h1
        · rw [h4, cartTotal_incQty cart nq.1 nq.2 d hlook hn, hd]
          simp only [List.map_cons, List.sum_cons]
          ring

/-- C8: two sequences of completed additions that are permutations of each
other — same multiset of (name, quantity) pairs, unit prices resolved per
name by the same catalog function — both succeed from an empty cart and
produce carts with equal grand totals. -/
theorem c8_total_permutation_invariant (P : String → ItemPayload)
    (l₁ l₂ : List (String × ℕ)) (hperm : l₁.Perm l₂) :
    ∃ c₁ c₂, foldAdds P [] l₁ = .ok c₁ ∧ foldAdds P [] l₂ = .ok c₂ ∧
      computeTotal c₁ = computeTotal c₂ := by
  obtain ⟨c₁, e₁, -, -, t₁⟩ :=
    foldAdds_ok P l₁ [] (by intro x hx; simp at hx) (by simp [CartKeysNodup])
  obtain ⟨c₂, e₂, -, -, t₂⟩ :=
    foldAdds_ok P l₂ [] (by intro x hx; simp at hx) (by simp [CartKeysNodup])
  refine ⟨c₁, c₂, e₁, e₂, ?_⟩
  have hsum : (l₁.map (fun x => (P x.1).total_price * (x.2 : ℚ))).sum =
      (l₂.map (fun x => (P x.1).total_price * (x.2 : ℚ))).sum :=
    (hperm.map _).sum_eq
  rw [computeTotal, computeTotal, t₁, t₂, hsum]

/-- Witness for C8: the two orders of adding a crate and an empty. -/
theorem c8_witness :
    ∃ c₁ c₂,
      foldAdds (fun n => if n = "Cola Crate" then ⟨12, 5, 17⟩ else ⟨0, 0, -5⟩)
          [] [("Cola Crate", 1), ("Empty Crate", 2)] = .ok c₁ ∧
      foldAdds (fun n => if n = "Cola Crate" then ⟨12, 5, 17⟩ else ⟨0, 0, -5⟩)
          [] [("Empty Crate", 2), ("Cola Crate", 1)] = .ok c₂ ∧
      computeTotal c₁ = computeTotal c₂ :=
  c8_total_permutation_invariant _ _ _
    (List.Perm.swap ("Empty Crate", 2) ("Cola Crate", 1) [])

theorem buildCrates_error_iff (ps : List RawProduct) :
    buildCrates ps = .error () ↔ ∃ p ∈ ps, p.name = none := by
  induction ps with
  | nil => simp [buildCrates]
  | cons p rest ih =>
      rcases hn : p.name with _ | nm
      · simp [buildCrates, hn]
      · cases hr : buildCrates rest with
        | error e =>
            cases e
            simp only [buildCrates, hn, hr]
            obtain ⟨x, hx, hxn⟩ := ih.1 hr
            exact iff_of_true trivial ⟨x, List.mem_cons_of_mem _ hx, hxn⟩
        | ok r =>
            simp only [buildCrates, hn, hr]
            constructor
            · intro h
              exact absurd h (by simp)
            · rintro ⟨x, hx, hxn⟩
              rcases List.mem_cons.1 hx with rfl | hx
              · rw [hn] at hxn
                exact absurd hxn (by simp)
              · have hcontra := ih.2 ⟨x, hx, hxn⟩
                rw [hr] at hcontra
                simp at hcontra

theorem buildBottles_error_iff (ps : List RawProduct) :
    buildBottles ps = .error () ↔ ∃ p ∈ ps, p.name = none := by
  induction ps with
  | nil => simp [buildBottles]
  | cons p rest ih =>
      rcases hn : p.name with _ | nm
      · simp [buildBottles, hn]
      · cases hr : buildBottles rest with
        | error e =>
            cases e
            simp only [buildBottles, hn, hr]
            obtain ⟨x, hx, hxn⟩ := ih.1 hr
            exact iff_of_true trivial ⟨x, List.mem_cons_of_mem _ hx, hxn⟩
        | ok r =>
            simp only [buildBottles, hn, hr]
            constructor
            · intro h
              exact absurd h (by simp)
            · rintro ⟨x, hx, hxn⟩
              rcases List.mem_cons.1 hx with rfl | hx
              · rw [hn] at hxn
                exact absurd hxn (by simp)
              · have hcontra := ih.2 ⟨x, hx, hxn⟩
                rw [hr] at hcontra
                simp at hcontra

theorem buildEmpties_error_iff (es : List RawEmpty) :
    buildEmpties es = .error () ↔ ∃ e ∈ es, e.name = none := by
  induction es with
  | nil => simp [buildEmpties]
  | cons p rest ih =>
      rcases hn : p.name with _ | nm
      · simp [buildEmpties, hn]
      · cases hr : buildEmpties rest with
        | error e =>
            cases e
            simp only [buildEmpties, hn, hr]
            obtain ⟨x, hx, hxn⟩ := ih.1 hr
            exact iff_of_true trivial ⟨x, List.mem_cons_of_mem _ hx, hxn⟩
        | ok r =>
            simp only [buildEmpties, hn, hr]
            constructor
            · intro h
              exact absurd h (by simp)
            · rintro ⟨x, hx, hxn⟩
              rcases List.mem_cons.1 hx with rfl | hx
              · rw [hn] at hxn
                exact absurd hxn (by simp)
              · have hcontra := ih.2 ⟨x, hx, hxn⟩
                rw [hr] at hcontra
                simp at hcontra

theorem get_products_missing_name (ps : List RawProduct) :
    (∃ p ∈ get_products ps, p.name = none) ↔ ∃ p ∈ ps, p.name = none := by
  simp only [get_products, List.mem_map]
  constructor
  · rintro ⟨x, ⟨y, hy, rfl⟩, hn⟩
    exact ⟨y, hy, hn⟩
  · rintro ⟨y, hy, hn⟩
    exact ⟨_, ⟨y, hy, rfl⟩, hn⟩

theorem get_empties_missing_name (es : List RawEmpty) :
    (∃ e ∈ get_empties es, e.name = none) ↔ ∃ e ∈ es, e.name = none := by
  simp only [get_empties, List.mem_map]
  constructor
  · rintro ⟨x, ⟨y, hy, rfl⟩, hn⟩
    exact ⟨y, hy, hn⟩
  · rintro ⟨y, hy, hn⟩
    exact ⟨_, ⟨y, hy, rfl⟩, hn⟩

/-- C4 (amended): startup catalog loading terminates the process if and only
if some product or empty record is missing its `name` field; an absent
monetary field never aborts the load (it is substituted by the default
`0.00`, see `c4_counterexample`). -/
theorem c4_fatal_only_on_missing_name (ps : List RawProduct)
    (es : List RawEmpty) :
    populate_selection_lists ps es = .error () ↔
      (∃ p ∈ ps, p.name = none) ∨ (∃ e ∈ es, e.name = none) := by
  cases hc : buildCrates (get_products ps) with
  | error e =>
      cases e
      have h1 : ∃ p ∈ ps, p.name = none :=
        (get_products_missing_name ps).1 ((buildCrates_error_iff _).1 hc)
      simp [populate_selection_lists, hc, h1]
  | ok cr =>
      have hnone : ¬ ∃ p ∈ ps, p.name = none := by
        intro hh
        have := (buildCrates_error_iff (get_products ps)).2
          ((get_products_missing_name ps).2 hh)
        rw [this] at hc
        cases hc
      cases hb : buildBottles (get_products ps) with
      | error e =>
          cases e
          exact absurd ((get_products_missing_name ps).1
            ((buildBottles_error_iff _).1 hb)) hnone
      | ok bo =>
          cases he : buildEmpties (get_empties es) with
          | error e =>
              cases e
              have h2 : ∃ x ∈ es, x.name = none :=
                (get_empties_missing_name es).1 ((buildEmpties_error_iff _).1 he)
              simp [populate_selection_lists, hc, hb, he, h2]
          | ok em =>
              have h2 : ¬ ∃ x ∈ es, x.name = none := by
                intro hh
                have := (buildEmpties_error_iff (get_empties es)).2
                  ((get_empties_missing_name es).2 hh)
                rw [this] at he
                cases he
              simp [populate_selection_lists, hc, hb, he, hnone, h2]

/-- Counterexample to C4 as stated: a product record with `crate_price` and
`bottle_deposit` absent loads successfully (no process exit), the absent
monetary fields being replaced by the default 0.00 — the load is not fatal
on a missing monetary field. -/
theorem c4_counterexample :
    populate_selection_lists
        [{ name := some "Cola", crate_price := none, crate_deposit := some 5,
           bottle_price := some 1, bottle_deposit := none }] [] =
      .ok ⟨[("Cola Crate", 0, 5, 5)], [("Cola Bottle", 1, 0, 1)], []⟩ := by
  with_unfolding_all decide

theorem interrupt_idle_nopending (s : AppState)
    (h1 : s.quit_confirmation_pending = false) (h2 : s.input_mode = .IDLE) :
    handle_action_interrupt s = (s, false) := by
  simp [handle_action_interrupt, h1, h2]

theorem interrupt_idle_pending (s : AppState)
    (h1 : s.quit_confirmation_pending = true) (h2 : s.input_mode = .IDLE) :
    handle_action_interrupt s =
      ({ s with quit_confirmation_pending := false,
                status_message := "Quit cancelled." }, true) := by
  simp [handle_action_interrupt, h1, h2]

theorem interrupt_nonidle_spec (s : AppState) (h : s.input_mode ≠ .IDLE) :
    (handle_action_interrupt s).2 = true ∧
    (handle_action_interrupt s).1.input_mode = .IDLE ∧
    (handle_action_interrupt s).1.input_buffer = "" ∧
    (handle_action_interrupt s).1.item_to_add = none ∧
    (handle_action_interrupt s).1.quit_confirmation_pending = false ∧
    (handle_action_interrupt s).1.current_cart = s.current_cart ∧
    ((handle_action_interrupt s).1.status_message = "Input cancelled." ∨
     (handle_action_interrupt s).1.status_message = "Quit cancelled.") := by
  by_cases hp : s.quit_confirmation_pending <;>
    simp [handle_action_interrupt, hp, h, reset_input_state]

/-- C6: while the input state machine is in any non-IDLE mode, the first
keystroke of any command (select-crate `a`, select-bottle `b`, select-empty
`e`, remove-item `r`, finish `f`, cancel-transaction `c`) only cancels the
in-progress input — back to IDLE, buffer and pending selection cleared,
cancellation reported — and never additionally performs that command's own
action: the cart and the store are untouched and no mode is entered. -/
theorem c6_interrupt_cancels_only (s : AppState) (db : DBState)
    (txFail : Bool) (ts : String) (k : Key)
    (hk : k ∈ [Key.a, Key.b, Key.e, Key.r, Key.f, Key.c])
    (hm : s.input_mode ≠ .IDLE) :
    ∃ s', step s db k txFail ts = .cont s' db ∧
      s'.input_mode = .IDLE ∧ s'.input_buffer = "" ∧ s'.item_to_add = none ∧
      s'.quit_confirmation_pending = false ∧
      s'.current_cart = s.current_cart ∧
      (s'.status_message = "Input cancelled." ∨
       s'.status_message = "Quit cancelled.") := by
  obtain ⟨ht, hmode, hbuf, hitem, hpend, hcart, hstat⟩ :=
    interrupt_nonidle_spec s hm
  refine ⟨(handle_action_interrupt s).1, ?_, hmode, hbuf, hitem, hpend,
    hcart, hstat⟩
  simp only [List.mem_cons, List.not_mem_nil, or_false] at hk
  rcases hk with rfl | rfl | rfl | rfl | rfl | rfl <;>
    simp [step, startMode, handleR, handleF, handleC, ht]

/-- Witness for C6: pressing finish while a crate number is being entered
only cancels the entry. -/
theorem c6_witness :
    ∃ s', step
        { available_crates_for_selection := [("Cola Crate", 12, 5, 17)]
          available_bottles_for_selection := []
          available_empties_for_selection := []
          current_cart := [("X", ⟨1, 0, 0, 5⟩)]
          status_message := ""
          input_buffer := "1"
          input_mode := .ADDING_CRATE
          item_to_add := none
          quit_confirmation_pending := false
          cart_display_order := ["X"] } ⟨[], some 100⟩ .f false "t" =
        .cont s' ⟨[], some 100⟩ ∧
      s'.input_mode = .IDLE ∧ s'.input_buffer = "" ∧ s'.item_to_add = none ∧
      s'.quit_confirmation_pending = false ∧
      s'.current_cart = [("X", ⟨1, 0, 0, 5⟩)] ∧
      (s'.status_message = "Input cancelled." ∨
       s'.status_message = "Quit cancelled.") :=
  c6_interrupt_cancels_only _ _ false "t" .f (by simp) (by simp)

/-- Concrete state with a pending quit confirmation over a non-empty cart. -/
def c7PendingState : AppState :=
  { available_crates_for_selection := []
    available_bottles_for_selection := []
    available_empties_for_selection := []
    current_cart := [("X", ⟨1, 0, 0, 5⟩)]
    status_message := ""
    input_buffer := ""
    input_mode := .IDLE
    item_to_add := none
    quit_confirmation_pending := true
    cart_display_order := ["X"] }

/-- Counterexample to C7 as stated: with quit confirmation pending, the
keystroke `Q` (uppercase, dispatched to the `<any>` binding, whose guard
compares `data.lower()` against `'q'`) neither exits nor clears the
pending flag — it does nothing at all, while the claim says every keystroke
other than quit clears the flag. -/
theorem c7_counterexample_upper_q :
    step c7PendingState ⟨[], some 100⟩ (.char 'Q') false "t" =
        .cont c7PendingState ⟨[], some 100⟩ ∧
      c7PendingState.quit_confirmation_pending = true := by
  constructor
  · with_unfolding_all decide
  · rfl

/-- C7 (amended): pressing `q` from IDLE with a non-empty cart and no pending
confirmation sets the quit-confirmation flag without exiting; pressing `q`
again while pending exits; pressing `q` from IDLE with an empty cart exits
immediately; any other keystroke while pending — except a character key that
lowercases to `q`, i.e. `Q` — clears the flag without exiting and without
performing its own action; the `Q` character keystroke while pending is
ignored entirely (it neither exits nor clears the flag). -/
theorem c7_quit_confirmation_amended (s : AppState) (db : DBState)
    (txFail : Bool) (ts : String) :
    (s.input_mode = .IDLE → s.quit_confirmation_pending = false →
      s.current_cart ≠ [] →
      step s db .q txFail ts =
        .cont { s with quit_confirmation_pending := true,
                       status_message := "" } db) ∧
    (s.quit_confirmation_pending = true →
      step s db .q txFail ts = .exit s db) ∧
    (s.input_mode = .IDLE → s.quit_confirmation_pending = false →
      s.current_cart = [] →
      step s db .q txFail ts = .exit s db) ∧
    (∀ k : Key, s.input_mode = .IDLE → s.quit_confirmation_pending = true →
      k ≠ .q → (∀ ch, k = .char ch → ch.toLower ≠ 'q') →
      step s db k txFail ts =
        .cont { s with quit_confirmation_pending := false,
                       status_message := "Quit cancelled." } db) ∧
    (s.input_mode = .IDLE → s.quit_confirmation_pending = true →
      step s db (.char 'Q') txFail ts = .cont s db) := by
  refine ⟨?_, ?_, ?_, ?_, ?_⟩
  · intro hm hp hc
    simp [step, handleQ, hp, hm, hc]
  · intro hp
    simp [step, handleQ, hp]
  · intro hm hp hc
    simp [step, handleQ, hp, hm, hc]
  · intro k hm hp hknq hkch
    have hint := interrupt_idle_pending s hp hm
    cases k with
    | q => exact absurd rfl hknq
    | a => simp [step, startMode, hint]
    | b => simp [step, startMode, hint]
    | e => simp [step, startMode, hint]
    | r => simp [step, handleR, hint]
    | f => simp [step, handleF, hint]
    | c => simp [step, handleC, hint]
    | enter => simp [step, handleEnter, hp, hint]
    | escape => simp [step, handleEscape, hm, hp, hint]
    | backspace => simp [step, handleBackspace, hm, hp, hint]
    | char ch =>
        have hch : ch.toLower ≠ 'q' := hkch ch rfl
        simp [step, handleAny, hp, hch, hint]
  · intro hm hp
    have h1 : ('Q'.toLower = 'q') := by decide
    have h2 : ¬ 'Q'.isDigit := by decide
    have h3 : 'Q'.isAlpha := by decide
    simp [step, handleAny, hp, h1, h2, h3]

/-- Witness for C7 (amended), exercised at concrete pending states: `q`
exits, `enter` cancels the confirmation, and from a fresh non-empty-cart
state `q` sets the flag. -/
theorem c7_witness :
    step c7PendingState ⟨[], some 100⟩ .q false "t" =
        .exit c7PendingState ⟨[], some 100⟩ ∧
      step c7PendingState ⟨[], some 100⟩ .enter false "t" =
        .cont { c7PendingState with quit_confirmation_pending := false,
                                    status_message := "Quit cancelled." }
          ⟨[], some 100⟩ ∧
      step { c7PendingState with quit_confirmation_pending := false }
          ⟨[], some 100⟩ .q false "t" =
        .cont { c7PendingState with quit_confirmation_pending := true,
                                    status_message := "" } ⟨[], some 100⟩ :=
  ⟨(c7_quit_confirmation_amended c7PendingState ⟨[], some 100⟩ false "t").2.1
      rfl,
   (c7_quit_confirmation_amended c7PendingState ⟨[], some 100⟩ false "t").2.2.2.1
      .enter rfl rfl (by decide) (by intro ch h; cases h),
   (c7_quit_confirmation_amended
      { c7PendingState with quit_confirmation_pending := false }
      ⟨[], some 100⟩ false "t").1 rfl rfl (by simp [c7PendingState])⟩

theorem finish_insert_always_fails (s : AppState) (db : DBState)
    (txFail : Bool) (ts : String)
    (hpend : s.quit_confirmation_pending = false)
    (hmode : s.input_mode = .IDLE)
    (hcart : s.current_cart ≠ []) :
    step s db .f txFail ts =
      .cont { s with status_message :=
        "Error saving transaction: Transaction could not be saved to database" }
        db := by
  have hint := interrupt_idle_nopending s hpend hmode
  have hitems : ¬ loggedItems s.current_cart = [] := by
    simp [loggedItems, hcart]
  simp only [step, handleF, hint]
  cases txFail
  · simp [hcart, add_transaction, hitems]
  · simp [hcart, add_transaction]

/-- C2 (code bug): the specified fully successful commit is impossible in the
program.  `database.add_transaction` iterates the items dict's string keys
and calls `.items()` on a string, so the insert raises `AttributeError` and
returns `False` for every non-empty cart; every press of finish therefore
aborts with the persistence error — nothing is persisted, the cash balance is
never updated, the cart is not cleared and the input state is untouched. -/
theorem c2_commit_always_fails (s : AppState) (db : DBState)
    (txFail : Bool) (ts : String)
    (hpend : s.quit_confirmation_pending = false)
    (hmode : s.input_mode = .IDLE)
    (hcart : s.current_cart ≠ []) :
    step s db .f txFail ts =
      .cont { s with status_message :=
        "Error saving transaction: Transaction could not be saved to database" }
        db :=
  finish_insert_always_fails s db txFail ts hpend hmode hcart

/-- C3: when persisting the transaction record fails, the finish command
reports the persistence error and leaves the application state otherwise
untouched — the cart keeps the same lines, quantities and prices, and the
store is unchanged — so the operator can retry. -/
theorem c3_persistence_failure_preserves_cart (s : AppState) (db : DBState)
    (ts : String)
    (hpend : s.quit_confirmation_pending = false)
    (hmode : s.input_mode = .IDLE)
    (hcart : s.current_cart ≠ []) :
    step s db .f true ts =
      .cont { s with status_message :=
        "Error saving transaction: Transaction could not be saved to database" }
        db := by
  have hint := interrupt_idle_nopending s hpend hmode
  simp only [step, handleF, hint]
  simp [hcart, add_transaction]

/-- Concrete IDLE state holding three Cola crates, ready to finish. -/
def commitReadyState : AppState :=
  { available_crates_for_selection := [("Cola Crate", 12, 5, 17)]
    available_bottles_for_selection := []
    available_empties_for_selection := []
    current_cart := [("Cola Crate", ⟨3, 12, 5, 17⟩)]
    status_message := ""
    input_buffer := ""
    input_mode := .IDLE
    item_to_add := none
    quit_confirmation_pending := false
    cart_display_order := ["Cola Crate"] }

/-- Concrete IDLE state whose cart nets to a grand total of exactly zero. -/
def zeroTotalState : AppState :=
  { available_crates_for_selection := []
    available_bottles_for_selection := []
    available_empties_for_selection := [("Empty Crate", -5)]
    current_cart := [("Water Crate", ⟨1, 0, 5, 5⟩), ("Empty Crate", ⟨1, 0, 0, -5⟩)]
    status_message := ""
    input_buffer := ""
    input_mode := .IDLE
    item_to_add := none
    quit_confirmation_pending := false
    cart_display_order := ["Empty Crate", "Water Crate"] }

/-- Counterexample to C10 as stated: committing a non-empty cart whose grand
total is exactly zero does not persist the transaction record and does not
report the cash-update error — the insert fails first, the store is
unchanged, and the reported error is the persistence one. -/
theorem c10_counterexample :
    step zeroTotalState ⟨[], some 100⟩ .f false "t" =
        .cont { zeroTotalState with status_message :=
          "Error saving transaction: Transaction could not be saved to database" }
          ⟨[], some 100⟩ ∧
      computeTotal zeroTotalState.current_cart = 0 := by
  constructor
  · with_unfolding_all decide
  · with_unfolding_all decide

/-- C10 (amended): the cash update does report success only when the balance
document was modified or newly upserted — in particular a `$inc` by zero on
an existing document reports failure — but committing a non-empty zero-total
cart never reaches the cash update: the transaction insert fails first
(`AttributeError` iterating the items dict's string keys), so no record is
persisted, the persistence error is reported with the cart left unchanged,
and a retry persists nothing either — no duplicate record. -/
theorem c10_zero_total_commit_amended (s : AppState) (db : DBState) (v : ℚ)
    (ts ts' : String) (txFail : Bool)
    (hpend : s.quit_confirmation_pending = false)
    (hmode : s.input_mode = .IDLE)
    (hcart : s.current_cart ≠ [])
    (_hcash : db.cash = some v)
    (_htot : computeTotal s.current_cart = 0) :
    (∀ (db₀ : DBState) (w : ℚ), db₀.cash = some w →
      (update_cash_on_hand db₀ 0).2 = false) ∧
    step s db .f txFail ts =
      .cont { s with status_message :=
        "Error saving transaction: Transaction could not be saved to database" }
        db ∧
    step { s with status_message :=
        "Error saving transaction: Transaction could not be saved to database" }
        db .f txFail ts' =
      .cont { s with status_message :=
        "Error saving transaction: Transaction could not be saved to database" }
        db := by
  refine ⟨?_, ?_, ?_⟩
  · intro db₀ w hw
    simp [update_cash_on_hand, hw]
  · exact finish_insert_always_fails s db txFail ts hpend hmode hcart
  · exact finish_insert_always_fails _ db txFail ts' hpend hmode hcart

theorem c2_witness :
    step commitReadyState ⟨[], some 100⟩ .f false "t" =
      .cont { commitReadyState with status_message :=
        "Error saving transaction: Transaction could not be saved to database" }
        ⟨[], some 100⟩ :=
  c2_commit_always_fails commitReadyState ⟨[], some 100⟩ false "t"
    rfl rfl (by simp [commitReadyState])

theorem c3_witness :
    step commitReadyState ⟨[], some 100⟩ .f true "t" =
      .cont { commitReadyState with status_message :=
        "Error saving transaction: Transaction could not be saved to database" }
        ⟨[], some 100⟩ :=
  c3_persistence_failure_preserves_cart commitReadyState ⟨[], some 100⟩ "t"
    rfl rfl (by simp [commitReadyState])

theorem c10_witness :
    (∀ (db₀ : DBState) (w : ℚ), db₀.cash = some w →
      (update_cash_on_hand db₀ 0).2 = false) ∧
    step zeroTotalState ⟨[], some 100⟩ .f false "t" =
      .cont { zeroTotalState with status_message :=
        "Error saving transaction: Transaction could not be saved to database" }
        ⟨[], some 100⟩ ∧
    step { zeroTotalState with status_message :=
        "Error saving transaction: Transaction could not be saved to database" }
        ⟨[], some 100⟩ .f false "u" =
      .cont { zeroTotalState with status_message :=
        "Error saving transaction: Transaction could not be saved to database" }
        ⟨[], some 100⟩ :=
  c10_zero_total_commit_amended zeroTotalState ⟨[], some 100⟩ 100 "t" "u"
    false rfl rfl (by simp [zeroTotalState]) rfl
    (by with_unfolding_all decide)

theorem inv_of_proj {s' : AppState} (hm : s'.input_mode = .IDLE)
    (hi : s'.item_to_add = none) : InputInv s' := by
  constructor
  · intro h2
    rw [hm] at h2
    cases h2
  · intro h2
    exact hi

theorem inv_of_some {s' : AppState} (hm : s'.input_mode ≠ .IDLE)
    (hi : s'.item_to_add.isSome) : InputInv s' :=
  ⟨fun _ => hi, fun h => absurd h hm⟩

theorem inv_same {s s' : AppState} (hm : s'.input_mode = s.input_mode)
    (hi : s'.item_to_add = s.item_to_add) (h : InputInv s) : InputInv s' := by
  rw [InputInv, hm, hi]
  exact h

theorem inv_reset (s : AppState) : InputInv (reset_input_state s) :=
  inv_of_proj rfl rfl

theorem inv_interrupt (s : AppState) (h : InputInv s) :
    InputInv (handle_action_interrupt s).1 := by
  by_cases hp : s.quit_confirmation_pending <;>
    by_cases hm : s.input_mode = InputMode.IDLE <;>
      simp_all [handle_action_interrupt, reset_input_state, InputInv]

theorem inv_handleQ {s s' : AppState} {db db' : DBState}
    (h : InputInv s) (hstep : handleQ s db = .cont s' db') : InputInv s' := by
  rw [handleQ] at hstep
  split_ifs at hstep
  · injection hstep with h1 h2
    subst h1
    exact inv_of_proj rfl rfl
  · injection hstep with h1 h2
    subst h1
    exact inv_same rfl rfl h

theorem inv_startMode {s s' : AppState} {db db' : DBState} {m : InputMode}
    (hm : m ≠ .ADDING_QUANTITY) (h : InputInv s)
    (hstep : startMode s db m = .cont s' db') : InputInv s' := by
  simp only [startMode] at hstep
  split_ifs at hstep
  · injection hstep with h1 h2
    subst h1
    exact inv_interrupt s h
  · injection hstep with h1 h2
    subst h1
    exact ⟨fun hq => absurd hq hm, fun _ => rfl⟩
  · injection hstep with h1 h2
    subst h1
    exact inv_same rfl rfl (inv_interrupt s h)

theorem inv_handleR {s s' : AppState} {db db' : DBState}
    (h : InputInv s) (hstep : handleR s db = .cont s' db') : InputInv s' := by
  simp only [handleR] at hstep
  split_ifs at hstep
  · injection hstep with h1 h2
    subst h1
    exact inv_interrupt s h
  · injection hstep with h1 h2
    subst h1
    exact inv_same rfl rfl (inv_interrupt s h)
  · injection hstep with h1 h2
    subst h1
    exact ⟨fun hq => absurd hq (by intro hq2; cases hq2), fun _ => rfl⟩
  · injection hstep with h1 h2
    subst h1
    exact inv_same rfl rfl (inv_interrupt s h)

theorem inv_handleF {s s' : AppState} {db db' : DBState} {txFail : Bool}
    {ts : String} (h : InputInv s)
    (hstep : handleF s db txFail ts = .cont s' db') : InputInv s' := by
  simp only [handleF] at hstep
  split_ifs at hstep <;>
    (injection hstep with h1 h2
     subst h1) <;>
    first
      | exact inv_of_proj rfl rfl
      | exact inv_same rfl rfl (inv_interrupt s h)

theorem inv_handleC {s s' : AppState} {db db' : DBState}
    (h : InputInv s) (hstep : handleC s db = .cont s' db') : InputInv s' := by
  simp only [handleC] at hstep
  split_ifs at hstep
  · injection hstep with h1 h2
    subst h1
    exact inv_interrupt s h
  · injection hstep with h1 h2
    subst h1
    exact inv_same rfl rfl (inv_interrupt s h)
  · injection hstep with h1 h2
    subst h1
    exact inv_of_proj rfl rfl

theorem inv_handleEscape {s s' : AppState} {db db' : DBState}
    (h : InputInv s) (hstep : handleEscape s db = .cont s' db') :
    InputInv s' := by
  rw [handleEscape] at hstep
  split_ifs at hstep
  · injection hstep with h1 h2
    subst h1
    exact inv_of_proj rfl rfl
  · injection hstep with h1 h2
    subst h1
    exact inv_interrupt s h
  · injection hstep with h1 h2
    subst h1
    exact inv_same rfl rfl h

theorem inv_handleBackspace {s s' : AppState} {db db' : DBState}
    (h : InputInv s) (hstep : handleBackspace s db = .cont s' db') :
    InputInv s' := by
  rw [handleBackspace] at hstep
  split_ifs at hstep
  · injection hstep with h1 h2
    subst h1
    exact inv_same rfl rfl h
  · injection hstep with h1 h2
    subst h1
    exact inv_interrupt s h
  · injection hstep with h1 h2
    subst h1
    exact h

theorem inv_handleAny {s s' : AppState} {db db' : DBState} {ch : Char}
    (h : InputInv s) (hstep : handleAny s db ch = .cont s' db') :
    InputInv s' := by
  rw [handleAny] at hstep
  split_ifs at hstep
  · injection hstep with h1 h2
    subst h1
    exact inv_interrupt s h
  · injection hstep with h1 h2
    subst h1
    exact inv_same rfl rfl h
  · injection hstep with h1 h2
    subst h1
    exact h
  · injection hstep with h1 h2
    subst h1
    exact inv_same rfl rfl h
  · injection hstep with h1 h2
    subst h1
    exact h
  · injection hstep with h1 h2
    subst h1
    exact h

theorem inv_enterCrate {s s' : AppState} {db db' : DBState}
    (h : InputInv s) (hstep : enterCrate s db = .cont s' db') :
    InputInv s' := by
  rw [enterCrate] at hstep
  split at hstep
  · split_ifs at hstep
    · injection hstep with h1 h2
      subst h1
      exact inv_of_some (by intro hq; cases hq) rfl
    · injection hstep with h1 h2
      subst h1
      exact inv_same rfl rfl h
  · injection hstep with h1 h2
    subst h1
    exact inv_same rfl rfl h

theorem inv_enterBottle {s s' : AppState} {db db' : DBState}
    (h : InputInv s) (hstep : enterBottle s db = .cont s' db') :
    InputInv s' := by
  rw [enterBottle] at hstep
  split at hstep
  · split_ifs at hstep
    · injection hstep with h1 h2
      subst h1
      exact inv_of_some (by intro hq; cases hq) rfl
    · injection hstep with h1 h2
      subst h1
      exact inv_same rfl rfl h
  · injection hstep with h1 h2
    subst h1
    exact inv_same rfl rfl h

theorem inv_enterEmpty {s s' : AppState} {db db' : DBState}
    (h : InputInv s) (hstep : enterEmpty s db = .cont s' db') :
    InputInv s' := by
  rw [enterEmpty] at hstep
  split at hstep
  · split_ifs at hstep
    · injection hstep with h1 h2
      subst h1
      exact inv_of_some (by intro hq; cases hq) rfl
    · injection hstep with h1 h2
      subst h1
      exact inv_same rfl rfl h
  · injection hstep with h1 h2
    subst h1
    exact inv_same rfl rfl h

theorem inv_enterQuantity {s s' : AppState} {db db' : DBState}
    (h : InputInv s) (hstep : enterQuantity s db = .cont s' db') :
    InputInv s' := by
  rw [enterQuantity] at hstep
  split at hstep
  · split_ifs at hstep
    · split at hstep
      · split at hstep
        · injection hstep with h1 h2
          subst h1
          exact inv_of_proj rfl rfl
        · exact StepOut.noConfusion hstep
      · injection hstep with h1 h2
        subst h1
        exact inv_of_proj rfl rfl
    · injection hstep with h1 h2
      subst h1
      exact inv_same rfl rfl h
  · injection hstep with h1 h2
    subst h1
    exact inv_same rfl rfl h

theorem inv_enterRemove {s s' : AppState} {db db' : DBState}
    (h : InputInv s) (hstep : enterRemove s db = .cont s' db') :
    InputInv s' := by
  rw [enterRemove] at hstep
  split at hstep
  · split_ifs at hstep
    · simp only [] at hstep
      split_ifs at hstep
      · injection hstep with h1 h2
        subst h1
        exact inv_of_proj rfl rfl
      · injection hstep with h1 h2
        subst h1
        exact inv_of_proj rfl rfl
    · injection hstep with h1 h2
      subst h1
      exact inv_same rfl rfl h
  · injection hstep with h1 h2
    subst h1
    exact inv_same rfl rfl h

theorem inv_handleEnter {s s' : AppState} {db db' : DBState}
    (h : InputInv s) (hstep : handleEnter s db = .cont s' db') :
    InputInv s' := by
  rw [handleEnter] at hstep
  split_ifs at hstep
  · injection hstep with h1 h2
    subst h1
    exact inv_interrupt s h
  · injection hstep with h1 h2
    subst h1
    exact inv_same rfl rfl h
  · split at hstep
    · exact inv_enterCrate h hstep
    · exact inv_enterBottle h hstep
    · exact inv_enterEmpty h hstep
    · exact inv_enterQuantity h hstep
    · exact inv_enterRemove h hstep
    · injection hstep with h1 h2
      subst h1
      exact h

theorem inv_step {s s' : AppState} {db db' : DBState} {k : Key}
    {txFail : Bool} {ts : String} (h : InputInv s)
    (hstep : step s db k txFail ts = .cont s' db') : InputInv s' := by
  cases k with
  | q => exact inv_handleQ h hstep
  | a => exact inv_startMode (by intro hq; cases hq) h hstep
  | b => exact inv_startMode (by intro hq; cases hq) h hstep
  | e => exact inv_startMode (by intro hq; cases hq) h hstep
  | r => exact inv_handleR h hstep
  | f => exact inv_handleF h hstep
  | c => exact inv_handleC h hstep
  | enter => exact inv_handleEnter h hstep
  | escape => exact inv_handleEscape h hstep
  | backspace => exact inv_handleBackspace h hstep
  | char ch => exact inv_handleAny h hstep

theorem inv_render (s : AppState) (h : InputInv s) : InputInv (render s) :=
  inv_same rfl rfl h

theorem reachable_inv (s : AppState) (h : Reachable s) : InputInv s := by
  induction h with
  | init crates bottles empties => exact inv_render _ (inv_of_proj rfl rfl)
  | next db k txFail ts hr hstep ih => exact inv_render _ (inv_step ih hstep)

/-- C9: in every observable state of the event loop, `ADDING_QUANTITY` mode
implies the pending selection `item_to_add` is set and `IDLE` implies it is
cleared; consequently the enabling condition of the internal-error branch of
the quantity confirmation (`ADDING_QUANTITY` with no pending selection) holds
in no reachable state — that branch is unreachable. -/
theorem c9_pending_selection_invariant (s : AppState) (h : Reachable s) :
    (s.input_mode = .ADDING_QUANTITY → s.item_to_add.isSome) ∧
    (s.input_mode = .IDLE → s.item_to_add = none) ∧
    ¬ (s.input_mode = .ADDING_QUANTITY ∧ s.item_to_add = none) := by
  obtain ⟨h1, h2⟩ := reachable_inv s h
  refine ⟨h1, h2, ?_⟩
  rintro ⟨hm, hi⟩
  rw [hi] at h1
  cases h1 hm

/-- Witness for C9 at a concrete reachable state: the initial state after the
first render. -/
theorem c9_witness :
    ((render (initialState [("Cola Crate", 12, 5, 17)] [] [])).input_mode =
        .ADDING_QUANTITY →
      (render (initialState [("Cola Crate", 12, 5, 17)] [] [])).item_to_add.isSome) ∧
    ((render (initialState [("Cola Crate", 12, 5, 17)] [] [])).input_mode =
        .IDLE →
      (render (initialState [("Cola Crate", 12, 5, 17)] [] [])).item_to_add =
        none) ∧
    ¬ ((render (initialState [("Cola Crate", 12, 5, 17)] [] [])).input_mode =
        .ADDING_QUANTITY ∧
       (render (initialState [("Cola Crate", 12, 5, 17)] [] [])).item_to_add =
        none) :=
  c9_pending_selection_invariant _
    (Reachable.init [("Cola Crate", 12, 5, 17)] [] [])

end Bierkeller

-- Concrete evaluations of the embedding, checking it against hand-computed
-- behaviour of the source (quantization, cart insertion, totals, parsing).
example : Bierkeller.quantize_decimal (125/1000) = 13/100 := by
  with_unfolding_all decide
example : Bierkeller.quantize_decimal (-(125/1000)) = -(13/100) := by
  with_unfolding_all decide
example : Bierkeller.quantize_decimal 17 = 17 := by with_unfolding_all decide
example :
    Bierkeller.addToCart [] "Cola Crate" ⟨12, 5, 17⟩ 3 =
      .ok [("Cola Crate", ⟨3, 12, 5, 17⟩)] := by with_unfolding_all decide
example :
    Bierkeller.computeTotal [("Cola Crate", ⟨3, 12, 5, 17⟩)] = 51 := by
  with_unfolding_all decide
example : Bierkeller.parseBufferNat "12" = some 12 := by decide
example : Bierkeller.parseBufferNat "" = none := by decide
example : Bierkeller.parseBufferNat "007" = some 7 := by decide
